import Mathlib

/-!
# Verification of the threaded K-means implementation

Shallow embedding of `src/prog6_kmeans/kmeansThread.cpp`.

Modelling choices:
* C `double` values are modelled as real numbers (`ℝ`); the literal `1e30`
  becomes `(10:ℝ)^30`.
* Flat C arrays (`double *`, `int *`) are modelled as total functions
  `ℕ → ℝ` / `ℕ → ℤ`; a loop that writes a range of the array becomes a
  `Function.update` fold.  Reads and writes at indices the C code never
  touches for in-contract inputs are irrelevant to every theorem below.
* C `int` loop bounds and sizes (`M`, `N`, `K`, `numThreads`, `start`,
  `end`) are modelled as `ℕ`: all the loops involved run from `0` upward,
  so a negative C bound behaves exactly like `0`, which is what natural
  subtraction `e - s` also gives for an empty range.
* Indexing an array with an out-of-range cluster index (which is undefined
  behaviour in the C code, reachable because `workerThreadStart` can leave
  an assignment equal to `-1`) is made observable: the folds of
  `computeCentroids` and `computeCost` return `none` when the assignment
  read for some point lies outside `[0, K)`.
-/

open Finset

/-- `dist` accumulator loop of `kmeansThread.cpp` (lines 59-65):
`accum += pow(x[i] - y[i], 2)` for `i = 0 .. nDim-1`, starting from `0.0`. -/
noncomputable def distAccum (x y : ℕ → ℝ) : ℕ → ℝ
  | 0 => 0
  | i + 1 => distAccum x y i + (x i - y i) ^ 2

/-- `dist(x, y, nDim)`: L2 distance, `sqrt` of the accumulated sum of squares. -/
noncomputable def dist (x y : ℕ → ℝ) (nDim : ℕ) : ℝ :=
  Real.sqrt (distAccum x y nDim)

/-- The distance computed in the inner loop of `workerThreadStart` (lines 84-85):
`dist(&data[m * N], &clusterCentroids[k * N], N)`. -/
noncomputable def pointDist (data clusterCentroids : ℕ → ℝ) (N m k : ℕ) : ℝ :=
  dist (fun i => data (m * N + i)) (fun i => clusterCentroids (k * N + i)) N

/-- Inner `k`-loop of `workerThreadStart` for one point `m` (lines 82-90),
together with the initialisation `minDist[i] = 1e30; clusterAssignments[m] = -1`
(lines 74-78).  The state is the pair `(minDist[i], clusterAssignments[m])`;
entries for distinct points never interact, so the per-point loop is embedded
directly.  `assignLoop … k` is the state after scanning centroids `0 .. k-1`:
`if (d < minDist[i]) { minDist[i] = d; clusterAssignments[m] = k; }`. -/
noncomputable def assignLoop (data clusterCentroids : ℕ → ℝ) (N m : ℕ) : ℕ → ℝ × ℤ
  | 0 => ((10 : ℝ) ^ 30, -1)
  | k + 1 =>
    let p := assignLoop data clusterCentroids N m k
    let d := pointDist data clusterCentroids N m k
    if d < p.1 then (d, (k : ℤ)) else p

/-- Outer `i`-loop of `workerThreadStart` (lines 81-91): after `n` iterations the
assignments of points `start .. start+n-1` have been overwritten with the result
of the per-point scan; all other entries are untouched. -/
noncomputable def workerLoop (data clusterCentroids : ℕ → ℝ) (N K start : ℕ)
    (clusterAssignments : ℕ → ℤ) : ℕ → ℕ → ℤ
  | 0 => clusterAssignments
  | n + 1 =>
    Function.update (workerLoop data clusterCentroids N K start clusterAssignments n)
      (start + n) (assignLoop data clusterCentroids N (start + n) K).2

/-- `workerThreadStart(args)` (lines 70-92): processes the half-open range
`[start, stop)` of point indices; `numPoints = end - start` (natural
subtraction, matching the C loop which runs zero times when `end <= start`). -/
noncomputable def workerThreadStart (data clusterCentroids : ℕ → ℝ) (N K : ℕ)
    (start stop : ℕ) (clusterAssignments : ℕ → ℤ) : ℕ → ℤ :=
  workerLoop data clusterCentroids N K start clusterAssignments (stop - start)

/-- Range start assigned to worker `i` in `computeAssignments` (line 106):
`numPointsPerThread * i` with `numPointsPerThread = M / numThreads`
(C integer division, i.e. floor). -/
def workerStart (M numThreads i : ℕ) : ℕ :=
  (M / numThreads) * i

/-- Range end assigned to worker `i` in `computeAssignments` (line 107):
`std::min(numPointsPerThread * (i + 1), M)`. -/
def workerEnd (M numThreads i : ℕ) : ℕ :=
  min ((M / numThreads) * (i + 1)) M

/-- `computeAssignments(args, numThreads)` (lines 94-117): every worker `i`
runs `workerThreadStart` on `[workerStart i, workerEnd i)`.  The C code runs
worker `0` inline and the others in spawned threads; the ranges are pairwise
disjoint and each worker only writes its own range, so the concurrent
execution is equivalent to this sequential fold over `i = 0 .. numThreads-1`. -/
noncomputable def computeAssignments (data clusterCentroids : ℕ → ℝ)
    (clusterAssignments : ℕ → ℤ) (M N K numThreads : ℕ) : ℕ → ℤ :=
  (List.range numThreads).foldl
    (fun a i => workerThreadStart data clusterCentroids N K
      (workerStart M numThreads i) (workerEnd M numThreads i) a)
    clusterAssignments

/-- Effect of the inner `n`-loop of `computeCentroids` for one point (lines
138-141): `clusterCentroids[k * N + n] += data[m * N + n]` for `n = 0 .. N-1`,
written as a pointwise function on the flat centroid array. -/
noncomputable def addPoint (clusterCentroids data : ℕ → ℝ) (k m N : ℕ) : ℕ → ℝ :=
  fun j => if k * N ≤ j ∧ j < k * N + N then
    clusterCentroids j + data (m * N + (j - k * N)) else clusterCentroids j

/-- The `m`-loop of `computeCentroids` (lines 136-143), starting from the
zeroed accumulators and counts of lines 127-132.  State: the flat centroid
accumulator and the `counts` array.  The C code indexes both arrays with
`k = clusterAssignments[m]` without any bounds check; an assignment outside
`[0, K)` is undefined behaviour, modelled as `none`. -/
noncomputable def sumLoop (data : ℕ → ℝ) (clusterAssignments : ℕ → ℤ) (N K : ℕ) :
    ℕ → Option ((ℕ → ℝ) × (ℕ → ℕ))
  | 0 => some (fun _ => 0, fun _ => 0)
  | m + 1 =>
    (sumLoop data clusterAssignments N K m).bind fun s =>
      if 0 ≤ clusterAssignments m ∧ clusterAssignments m < (K : ℤ) then
        some (addPoint s.1 data (clusterAssignments m).toNat m N,
          Function.update s.2 (clusterAssignments m).toNat
            (s.2 (clusterAssignments m).toNat + 1))
      else none

/-- `computeCentroids(args)` (lines 123-154): zero the centroids and counts,
accumulate each point into its assigned cluster, then divide position
`k * N + n` by `max(counts[k], 1)` (lines 146-151; `k` is recovered from the
flat index as `j / N`).  Entries at or beyond `K * N` are never written by the
C code, so they keep the previous centroid contents. -/
noncomputable def computeCentroids (data : ℕ → ℝ) (clusterAssignments : ℕ → ℤ)
    (clusterCentroids : ℕ → ℝ) (M N K : ℕ) : Option (ℕ → ℝ) :=
  (sumLoop data clusterAssignments N K M).map fun s =>
    fun j => if j < K * N then s.1 j / (max (s.2 (j / N)) 1 : ℕ) else clusterCentroids j

/-- The `m`-loop of `computeCost` (lines 168-172), starting from the zeroed
`accum` of lines 163-165: `accum[k] += dist(&data[m*N], &clusterCentroids[k*N], N)`
with `k = clusterAssignments[m]`; again an assignment outside `[0, K)` is an
unchecked out-of-range index, modelled as `none`. -/
noncomputable def costLoop (data : ℕ → ℝ) (clusterAssignments : ℕ → ℤ)
    (clusterCentroids : ℕ → ℝ) (N K : ℕ) : ℕ → Option (ℕ → ℝ)
  | 0 => some fun _ => 0
  | m + 1 =>
    (costLoop data clusterAssignments clusterCentroids N K m).bind fun accum =>
      if 0 ≤ clusterAssignments m ∧ clusterAssignments m < (K : ℤ) then
        some (Function.update accum (clusterAssignments m).toNat
          (accum (clusterAssignments m).toNat +
            pointDist data clusterCentroids N m (clusterAssignments m).toNat))
      else none

/-- `computeCost(args)` (lines 159-180): accumulate per-cluster costs, then
`currCost[k] = accum[k]` for `k = 0 .. K-1` (lines 175-177). -/
noncomputable def computeCost (data : ℕ → ℝ) (clusterAssignments : ℕ → ℤ)
    (clusterCentroids : ℕ → ℝ) (M N K : ℕ) (currCost : ℕ → ℝ) : Option (ℕ → ℝ) :=
  (costLoop data clusterAssignments clusterCentroids N K M).map fun accum =>
    fun k => if k < K then accum k else currCost k

/-- `stoppingConditionMet(prevCost, currCost, epsilon, K)` (lines 40-47):
`false` as soon as some `k < K` has `abs(prevCost[k] - currCost[k]) > epsilon`,
`true` otherwise.  The C loop scans `k` upward with an early return; the
recursion here scans downward, which computes the same boolean (the loop's
value does not depend on the scan order). -/
noncomputable def stoppingConditionMet (prevCost currCost : ℕ → ℝ) (epsilon : ℝ) :
    ℕ → Bool
  | 0 => true
  | k + 1 =>
    if |prevCost k - currCost k| > epsilon then false
    else stoppingConditionMet prevCost currCost epsilon k

/-- The mutable program state threaded through the main loop of
`kMeansThread`: the centroid array, the assignment array and the two cost
arrays. -/
structure KState where
  clusterCentroids : ℕ → ℝ
  clusterAssignments : ℕ → ℤ
  prevCost : ℕ → ℝ
  currCost : ℕ → ℝ

/-- One iteration of the main loop of `kMeansThread` (lines 229-255): copy
`currCost` into `prevCost` (lines 231-233), then run `computeAssignments`,
`computeCentroids` and `computeCost` in order.  `none` propagates the
undefined behaviour of an out-of-range cluster index. -/
noncomputable def kmeansIter (data : ℕ → ℝ) (M N K numThreads : ℕ) (s : KState) :
    Option KState :=
  (computeCentroids data
      (computeAssignments data s.clusterCentroids s.clusterAssignments M N K numThreads)
      s.clusterCentroids M N K).bind fun cent =>
    (computeCost data
        (computeAssignments data s.clusterCentroids s.clusterAssignments M N K numThreads)
        cent M N K s.currCost).map fun curr =>
      ⟨cent,
        computeAssignments data s.clusterCentroids s.clusterAssignments M N K numThreads,
        s.currCost, curr⟩

/-- The `while (!stoppingConditionMet(...))` loop of `kMeansThread` (lines
229-255), with explicit fuel: `none` when the fuel runs out before the
stopping condition holds (the C loop has no iteration cap) or when an
iteration hits undefined behaviour. -/
noncomputable def kmeansLoop (data : ℕ → ℝ) (M N K numThreads : ℕ) (epsilon : ℝ) :
    ℕ → KState → Option KState
  | 0, s =>
    if stoppingConditionMet s.prevCost s.currCost epsilon K then some s else none
  | fuel + 1, s =>
    if stoppingConditionMet s.prevCost s.currCost epsilon K then some s
    else (kmeansIter data M N K numThreads s).bind
      (kmeansLoop data M N K numThreads epsilon fuel)

/-- `kMeansThread(data, clusterCentroids, clusterAssignments, M, N, K, epsilon)`
(lines 202-259): initialise `prevCost[k] = 1e30`, `currCost[k] = 0.0` and run
the main loop with the hard-coded `numThreads = 16` (line 227).  The function
performs no validation of `M`, `N` or `K`. -/
noncomputable def kMeansThread (data clusterCentroids : ℕ → ℝ)
    (clusterAssignments : ℕ → ℤ) (M N K : ℕ) (epsilon : ℝ) (fuel : ℕ) :
    Option KState :=
  kmeansLoop data M N K 16 epsilon fuel
    ⟨clusterCentroids, clusterAssignments, fun _ => (10 : ℝ) ^ 30, fun _ => 0⟩

/-! ### Concrete inputs used to exercise the embedded code -/

/-- An all-zero data / centroid array. -/
noncomputable def dataZ : ℕ → ℝ := fun _ => 0

/-- A data array whose every coordinate is `2e30`, beyond the `1e30` sentinel
of `workerThreadStart`. -/
noncomputable def dataBig : ℕ → ℝ := fun _ => 2 * 10 ^ 30

/-- A two-point one-dimensional data array: point `0` at `2`, point `1` at `4`. -/
noncomputable def dataTwoFour : ℕ → ℝ := fun m => if m = 0 then 2 else 4

/-- An assignment array whose every entry is `0`. -/
def asgZero : ℕ → ℤ := fun _ => 0

/-- An assignment array whose every entry is `-1`. -/
def asgNegOne : ℕ → ℤ := fun _ => -1

/-- An assignment array whose every entry is `-7`. -/
def asgMinusSeven : ℕ → ℤ := fun _ => -7

/-- An assignment array whose every entry is `5`. -/
def asgFive : ℕ → ℤ := fun _ => 5

/-- An assignment array whose every entry is `7`. -/
def asgSeven : ℕ → ℤ := fun _ => 7

/-- The all-zero program state (zero centroids, assignments and costs). -/
noncomputable def sZero : KState := ⟨dataZ, asgZero, dataZ, dataZ⟩

/-! ### Helper lemmas about the assignment phase -/

/-- Inside its range, the value written by the worker loop is the result of the
per-point centroid scan, whatever the prior array contents were. -/
lemma workerLoop_apply_in (data cent : ℕ → ℝ) (N K start : ℕ) (asg : ℕ → ℤ) :
    ∀ n m, start ≤ m → m < start + n →
      workerLoop data cent N K start asg n m = (assignLoop data cent N m K).2 := by
  intro n
  induction n with
  | zero => intro m h1 h2; omega
  | succ n ih =>
    intro m h1 h2
    by_cases hm : m = start + n
    · subst hm; simp [workerLoop]
    · rw [workerLoop, Function.update_apply, if_neg hm]
      exact ih m h1 (by omega)

/-- Outside its range, the worker loop leaves the assignment array untouched. -/
lemma workerLoop_apply_out (data cent : ℕ → ℝ) (N K start : ℕ) (asg : ℕ → ℤ) :
    ∀ n m, (m < start ∨ start + n ≤ m) → workerLoop data cent N K start asg n m = asg m := by
  intro n
  induction n with
  | zero => intro m _; rfl
  | succ n ih =>
    intro m hm
    rw [workerLoop, Function.update_apply, if_neg (by omega)]
    exact ih m (by omega)

/-- When `M / numThreads = 0` every worker range is empty, and
`computeAssignments` returns the assignment array unchanged. -/
lemma computeAssignments_empty (data cent : ℕ → ℝ) (asg : ℕ → ℤ) (M N K T : ℕ)
    (h : M / T = 0) : computeAssignments data cent asg M N K T = asg := by
  have hstep : ∀ (a : ℕ → ℤ) (i : ℕ),
      workerThreadStart data cent N K (workerStart M T i) (workerEnd M T i) a = a := by
    intro a i
    unfold workerThreadStart workerStart workerEnd
    rw [h]
    simp [workerLoop]
  have hfold : ∀ (l : List ℕ) (a : ℕ → ℤ),
      l.foldl (fun a i => workerThreadStart data cent N K
        (workerStart M T i) (workerEnd M T i) a) a = a := by
    intro l
    induction l with
    | nil => intro a; rfl
    | cons x xs ih => intro a; rw [List.foldl_cons, hstep]; exact ih a
  exact hfold _ _

/-- One-dimensional L2 distance is the absolute difference. -/
lemma dist_one (x y : ℕ → ℝ) : dist x y 1 = |x 0 - y 0| := by
  show Real.sqrt (distAccum x y 0 + (x 0 - y 0) ^ 2) = |x 0 - y 0|
  rw [show distAccum x y 0 = 0 from rfl, zero_add, Real.sqrt_sq_eq_abs]

/-- One step of the per-point scan, unfolded. -/
lemma assignLoop_succ (data cent : ℕ → ℝ) (N m k : ℕ) :
    assignLoop data cent N m (k + 1) =
      if pointDist data cent N m k < (assignLoop data cent N m k).1
      then (pointDist data cent N m k, (k : ℤ)) else assignLoop data cent N m k := rfl

/-- With a single centroid at distance `0`, the scan records index `0`. -/
lemma assignLoop_one_zero (data cent : ℕ → ℝ) (N m : ℕ)
    (h : pointDist data cent N m 0 = 0) :
    assignLoop data cent N m 1 = (0, 0) := by
  have h30 : (0 : ℝ) < (assignLoop data cent N m 0).1 := by
    show (0 : ℝ) < 10 ^ 30
    norm_num
  rw [show (1 : ℕ) = 0 + 1 from rfl, assignLoop_succ, h, if_pos h30]
  norm_num

/-- Claim C1: the partition made by `computeAssignments` does NOT cover
`[0, M)` once each.  The code computes `numPointsPerThread = M / numThreads`
(floor division, not the ceiling the claim states), so for `M = 10` and
`numThreads = 3` point `9` lies in no worker's range, and for `M = 1` and
`numThreads = 16` every worker's range is empty and no point at all is
processed. -/
theorem c1_floor_partition_skips_points :
    (∀ i < 3, ¬ (workerStart 10 3 i ≤ 9 ∧ 9 < workerEnd 10 3 i)) ∧
    (∀ i < 16, workerEnd 1 16 i ≤ workerStart 1 16 i) := by
  decide

/-- Claim C10: inside its half-open range, the value `workerThreadStart`
writes depends only on the data and the current centroids: two runs from any
two prior assignment-array contents write identical entries, because the
kernel resets each entry (to `-1`) and its running minimum (to `1e30`)
before scanning the centroids. -/
theorem c10_result_independent_of_prior_assignments (data cent : ℕ → ℝ)
    (N K s e m : ℕ) (asg1 asg2 : ℕ → ℤ) (h1 : s ≤ m) (h2 : m < e) :
    workerThreadStart data cent N K s e asg1 m =
      workerThreadStart data cent N K s e asg2 m := by
  unfold workerThreadStart
  rw [workerLoop_apply_in data cent N K s asg1 (e - s) m h1 (by omega),
    workerLoop_apply_in data cent N K s asg2 (e - s) m h1 (by omega)]

/-- Witness for C10 at a concrete input: range `[0, 1)`, point `0`, prior
contents all `5` versus all `7`. -/
theorem c10_witness :
    ((0 : ℕ) ≤ 0 ∧ (0 : ℕ) < 1) ∧
    workerThreadStart dataZ dataZ 1 1 0 1 asgFive 0 =
      workerThreadStart dataZ dataZ 1 1 0 1 asgSeven 0 :=
  ⟨⟨le_refl 0, Nat.one_pos⟩,
    c10_result_independent_of_prior_assignments dataZ dataZ 1 1 0 1 0 asgFive asgSeven
      (le_refl 0) Nat.one_pos⟩

/-- Claim C2: the observable result of the assignment phase is NOT independent
of the worker count.  For `M = 1` the run with `numThreads = 16` processes no
point at all (`1 / 16 = 0`, every range empty) and leaves the prior entry
`-1`, while the run with `numThreads = 1` assigns point `0` to centroid `0`. -/
theorem c2_result_depends_on_worker_count :
    computeAssignments dataZ dataZ asgNegOne 1 1 1 16 0 = -1 ∧
    computeAssignments dataZ dataZ asgNegOne 1 1 1 1 0 = 0 ∧
    computeAssignments dataZ dataZ asgNegOne 1 1 1 16 0 ≠
      computeAssignments dataZ dataZ asgNegOne 1 1 1 1 0 := by
  have hd : pointDist dataZ dataZ 1 0 0 = 0 := by
    unfold pointDist
    rw [dist_one]
    norm_num [dataZ]
  have h16 : computeAssignments dataZ dataZ asgNegOne 1 1 1 16 = asgNegOne :=
    computeAssignments_empty dataZ dataZ asgNegOne 1 1 1 16 (by norm_num)
  have e0 : workerStart 1 1 0 = 0 := by norm_num [workerStart]
  have e1 : workerEnd 1 1 0 - workerStart 1 1 0 = 0 + 1 := by
    norm_num [workerStart, workerEnd]
  have h1 : computeAssignments dataZ dataZ asgNegOne 1 1 1 1 0 = 0 := by
    unfold computeAssignments
    rw [show List.range 1 = [0] by simp [List.range_succ], List.foldl_cons, List.foldl_nil]
    unfold workerThreadStart
    rw [e1, e0, workerLoop, Function.update_apply]
    norm_num
    rw [assignLoop_one_zero dataZ dataZ 1 0 hd]
  refine ⟨by rw [h16]; rfl, h1, ?_⟩
  rw [h16, h1]
  decide

/-- Claim C4: the assignment-vector invariant fails.  With `M = 1` and the
hard-coded `numThreads = 16` of `kMeansThread`, the assignment phase processes
no point (`1 / 16 = 0`), so a prior entry `-7` survives the phase and is not
in `[0, K)`; the subsequent `computeCentroids` then indexes its arrays with
`-7`, which is undefined behaviour (modelled as `none`), so the whole run of
`kMeansThread` is undefined as well. -/
theorem c4_entry_survives_outside_range :
    computeAssignments dataZ dataZ asgMinusSeven 1 1 1 16 0 = -7 ∧
    ¬ ((0 : ℤ) ≤ -7 ∧ (-7 : ℤ) < 1) ∧
    kMeansThread dataZ dataZ asgMinusSeven 1 1 1 1 2 = none := by
  have hca : computeAssignments dataZ dataZ asgMinusSeven 1 1 1 16 = asgMinusSeven :=
    computeAssignments_empty dataZ dataZ asgMinusSeven 1 1 1 16 (by norm_num)
  have hstop : stoppingConditionMet (fun _ => (10 : ℝ) ^ 30) (fun _ => (0 : ℝ)) 1 1 = false := by
    rw [show (1 : ℕ) = 0 + 1 from rfl, stoppingConditionMet]
    rw [if_pos]
    show |(10 : ℝ) ^ 30 - 0| > 1
    rw [sub_zero, abs_of_nonneg (by positivity)]
    norm_num
  have hcc : computeCentroids dataZ asgMinusSeven dataZ 1 1 1 = none := by
    unfold computeCentroids
    rw [show (1 : ℕ) = 0 + 1 from rfl, sumLoop]
    rw [sumLoop]
    simp [asgMinusSeven]
  refine ⟨by rw [hca]; rfl, by decide, ?_⟩
  rw [kMeansThread, show (2 : ℕ) = 1 + 1 from rfl, kmeansLoop]
  rw [show (⟨dataZ, asgMinusSeven, fun _ => (10 : ℝ) ^ 30, fun _ => 0⟩ : KState).prevCost
    = (fun _ => (10 : ℝ) ^ 30) from rfl]
  rw [show (⟨dataZ, asgMinusSeven, fun _ => (10 : ℝ) ^ 30, fun _ => 0⟩ : KState).currCost
    = (fun _ => (0 : ℝ)) from rfl]
  rw [hstop]
  rw [if_neg (by simp)]
  rw [kmeansIter]
  rw [show (⟨dataZ, asgMinusSeven, fun _ => (10 : ℝ) ^ 30, fun _ => 0⟩ : KState).clusterCentroids
    = dataZ from rfl]
  rw [show (⟨dataZ, asgMinusSeven, fun _ => (10 : ℝ) ^ 30, fun _ => 0⟩ : KState).clusterAssignments
    = asgMinusSeven from rfl]
  rw [hca, hcc]
  rfl

/-- Claim C3 counterexample: `kMeansThread` does not reject nonpositive
dimensions.  At `M = N = K = 0` it returns normally (the convergence check
over zero clusters is vacuously true), instead of failing with an error. -/
theorem c3_counterexample_returns_normally :
    (kMeansThread dataZ dataZ asgZero 0 0 0 1 0).isSome = true := by
  rw [kMeansThread, kmeansLoop]
  rw [if_pos]
  · rfl
  · show stoppingConditionMet _ _ _ 0 = true
    rfl

/-- Claim C3 (amended): `kMeansThread` performs no validation of `M`, `N`, `K`.
With `K = 0` it proceeds straight into the main loop, whose stopping condition
is vacuously satisfied, and returns the input state unchanged — no error, no
rejection. -/
theorem c3_no_validation_k_zero (data clusterCentroids : ℕ → ℝ)
    (clusterAssignments : ℕ → ℤ) (M N : ℕ) (epsilon : ℝ) (fuel : ℕ) :
    kMeansThread data clusterCentroids clusterAssignments M N 0 epsilon fuel =
      some ⟨clusterCentroids, clusterAssignments, fun _ => (10 : ℝ) ^ 30, fun _ => 0⟩ := by
  cases fuel with
  | zero =>
    rw [kMeansThread, kmeansLoop, if_pos]
    show stoppingConditionMet _ _ _ 0 = true
    rfl
  | succ fuel =>
    rw [kMeansThread, kmeansLoop, if_pos]
    show stoppingConditionMet _ _ _ 0 = true
    rfl

/-- Claim C5 counterexample: the stopping test is NOT "strictly less than
epsilon".  When a per-cluster cost change equals epsilon exactly
(`|1 - 0| = 1 = epsilon`), the code declares convergence (`abs(...) > epsilon`
fails), although the change is not strictly less than epsilon. -/
theorem c5_boundary_counterexample :
    stoppingConditionMet (fun _ => (1 : ℝ)) (fun _ => (0 : ℝ)) 1 1 = true ∧
    ¬ (|(1 : ℝ) - 0| < 1) := by
  constructor
  · rw [show (1 : ℕ) = 0 + 1 from rfl, stoppingConditionMet, if_neg]
    · rfl
    · show ¬ |(1 : ℝ) - 0| > 1
      rw [sub_zero, abs_one]
      norm_num
  · rw [sub_zero, abs_one]
    norm_num

/-- Claim C5 (amended): before each iteration the driver copies the current
cost vector into the previous cost vector, and `stoppingConditionMet` declares
convergence if and only if every cluster's cost change is at most epsilon
(non-strict comparison: the C test is `abs(prev[k] - curr[k]) > epsilon`). -/
theorem c5_convergence_check :
    (∀ (data : ℕ → ℝ) (M N K numThreads : ℕ) (s s' : KState),
      kmeansIter data M N K numThreads s = some s' → s'.prevCost = s.currCost) ∧
    (∀ (prevCost currCost : ℕ → ℝ) (epsilon : ℝ) (K : ℕ),
      stoppingConditionMet prevCost currCost epsilon K = true ↔
        ∀ k < K, |prevCost k - currCost k| ≤ epsilon) := by
  constructor
  · intro data M N K T s s' h
    rw [kmeansIter, Option.bind_eq_some] at h
    obtain ⟨cent, _, h⟩ := h
    rw [Option.map_eq_some'] at h
    obtain ⟨curr, _, h⟩ := h
    rw [← h]
  · intro p c eps K
    induction K with
    | zero =>
      constructor
      · intro _ k hk
        exact absurd hk (Nat.not_lt_zero k)
      · intro _
        rfl
    | succ K ih =>
      constructor
      · intro h k hk
        rw [stoppingConditionMet] at h
        by_cases hK : |p K - c K| > eps
        · rw [if_pos hK] at h
          exact absurd h (by simp)
        · rw [if_neg hK] at h
          rcases Nat.lt_succ_iff_lt_or_eq.mp hk with h' | h'
          · exact (ih.mp h) k h'
          · rw [h']
            exact not_lt.mp hK
      · intro h
        rw [stoppingConditionMet, if_neg (not_lt.mpr (h K (Nat.lt_succ_self K)))]
        exact ih.mpr fun k hk => h k (Nat.lt_succ_of_lt hk)

/-- Witness for C5: a concrete successful iteration (`M = N = K = 0`, one
worker) for the first part; its output state's previous cost vector is the
input state's current cost vector. -/
theorem c5_witness :
    kmeansIter dataZ 0 0 0 1 sZero = some sZero ∧ sZero.prevCost = sZero.currCost := by
  have hca : computeAssignments dataZ dataZ asgZero 0 0 0 1 = asgZero :=
    computeAssignments_empty dataZ dataZ asgZero 0 0 0 1 (by norm_num)
  have hcent : computeCentroids dataZ asgZero dataZ 0 0 0 = some dataZ := by
    rw [computeCentroids, show sumLoop dataZ asgZero 0 0 0
      = some (fun _ => 0, fun _ => 0) from rfl, Option.map_some']
    refine congrArg _ (funext fun j => ?_)
    rw [if_neg (by omega)]
  have hcost : computeCost dataZ asgZero dataZ 0 0 0 dataZ = some dataZ := by
    rw [computeCost, show costLoop dataZ asgZero dataZ 0 0 0
      = some (fun _ => 0) from rfl, Option.map_some']
    refine congrArg _ (funext fun k => ?_)
    rw [if_neg (by omega)]
  have h : kmeansIter dataZ 0 0 0 1 sZero = some sZero := by
    rw [kmeansIter]
    rw [show sZero.clusterCentroids = dataZ from rfl,
      show sZero.clusterAssignments = asgZero from rfl,
      show sZero.currCost = dataZ from rfl, hca, hcent]
    rw [Option.some_bind, hcost, Option.map_some']
    rfl
  exact ⟨h, c5_convergence_check.1 dataZ 0 0 0 1 sZero sZero h⟩

/-- Flat position `k * N + n` (with `n < N`) lies inside cluster `q`'s block
of the centroid array iff `q = k`. -/
lemma slot_iff {k q N n : ℕ} (hn : n < N) :
    (q * N ≤ k * N + n ∧ k * N + n < q * N + N) ↔ q = k := by
  constructor
  · rintro ⟨h1, h2⟩
    rcases lt_trichotomy q k with h | h | h
    · exfalso
      have hq : q * N + N ≤ k * N := by
        calc q * N + N = (q + 1) * N := by ring
          _ ≤ k * N := Nat.mul_le_mul_right N h
      omega
    · exact h
    · exfalso
      have hk : k * N + N ≤ q * N := by
        calc k * N + N = (k + 1) * N := by ring
          _ ≤ q * N := Nat.mul_le_mul_right N h
      omega
  · rintro rfl
    omega

/-- Characterisation of the accumulation loop of `computeCentroids`: when all
assignments are in `[0, K)` it succeeds, the accumulator holds the per-cluster
per-dimension sums, and `counts` holds the number of points assigned to each
cluster. -/
lemma sumLoop_spec (data : ℕ → ℝ) (asg : ℕ → ℤ) (N K : ℕ) :
    ∀ M, (∀ m < M, 0 ≤ asg m ∧ asg m < (K : ℤ)) →
      ∃ S C, sumLoop data asg N K M = some (S, C) ∧
        (∀ k < K, ∀ n < N, S (k * N + n) =
          ∑ m ∈ (Finset.range M).filter (fun m => asg m = (k : ℤ)), data (m * N + n)) ∧
        (∀ k < K, C k = ((Finset.range M).filter (fun m => asg m = (k : ℤ))).card) := by
  intro M
  induction M with
  | zero =>
    intro _
    refine ⟨fun _ => 0, fun _ => 0, rfl, ?_, ?_⟩
    · intro k _ n _
      simp
    · intro k _
      simp
  | succ M ih =>
    intro h
    obtain ⟨S, C, hEq, hS, hC⟩ := ih fun m hm => h m (Nat.lt_succ_of_lt hm)
    obtain ⟨hge, hlt⟩ := h M (Nat.lt_succ_self M)
    have hMk : asg M = ((asg M).toNat : ℤ) := (Int.toNat_of_nonneg hge).symm
    refine ⟨addPoint S data (asg M).toNat M N,
      Function.update C (asg M).toNat (C (asg M).toNat + 1), ?_, ?_, ?_⟩
    · rw [sumLoop, hEq, Option.some_bind, if_pos ⟨hge, hlt⟩]
    · intro k hk n hn
      rw [Finset.range_succ, Finset.filter_insert]
      unfold addPoint
      by_cases hkM : (asg M).toNat = k
      · rw [if_pos ((slot_iff hn).mpr hkM)]
        rw [if_pos (by rw [hMk, hkM])]
        rw [Finset.sum_insert (by simp)]
        rw [hkM, Nat.add_sub_cancel_left, hS k hk n hn]
        ring
      · rw [if_neg (fun hc => hkM ((slot_iff hn).mp hc))]
        rw [if_neg (fun hc => hkM (by rw [hMk] at hc; exact_mod_cast hc))]
        exact hS k hk n hn
    · intro k hk
      rw [Finset.range_succ, Finset.filter_insert, Function.update_apply]
      by_cases hkM : k = (asg M).toNat
      · rw [if_pos hkM, if_pos (by rw [hMk, hkM])]
        rw [Finset.card_insert_of_not_mem (by simp), hkM, hC (asg M).toNat (by omega)]
      · rw [if_neg hkM, if_neg (fun hc => hkM (by rw [hMk] at hc; exact_mod_cast hc.symm))]
        exact hC k hk

/-- Claim C6: for in-range assignments, `computeCentroids` overwrites each
centroid with the per-dimension sum of the points assigned to that cluster
divided by `max(count, 1)`, i.e. the arithmetic mean of the assigned points;
a cluster with zero assigned points gets an all-zeros centroid (no division
by zero). -/
theorem c6_centroids_are_clamped_means (data : ℕ → ℝ) (asg : ℕ → ℤ)
    (cent : ℕ → ℝ) (M N K : ℕ)
    (h : ∀ m < M, 0 ≤ asg m ∧ asg m < (K : ℤ)) :
    ∃ f, computeCentroids data asg cent M N K = some f ∧
      (∀ k < K, ∀ n < N, f (k * N + n) =
        (∑ m ∈ (Finset.range M).filter (fun m => asg m = (k : ℤ)), data (m * N + n)) /
          (max ((Finset.range M).filter (fun m => asg m = (k : ℤ))).card 1 : ℕ)) ∧
      (∀ k < K, ∀ n < N,
        ((Finset.range M).filter (fun m => asg m = (k : ℤ))).card = 0 →
          f (k * N + n) = 0) := by
  obtain ⟨S, C, hEq, hS, hC⟩ := sumLoop_spec data asg N K M h
  have hmean : ∀ k < K, ∀ n < N,
      (fun j => if j < K * N then S j / (max (C (j / N)) 1 : ℕ) else cent j) (k * N + n) =
        (∑ m ∈ (Finset.range M).filter (fun m => asg m = (k : ℤ)), data (m * N + n)) /
          (max ((Finset.range M).filter (fun m => asg m = (k : ℤ))).card 1 : ℕ) := by
    intro k hk n hn
    have hj : k * N + n < K * N := by
      calc k * N + n < k * N + N := by omega
        _ = (k + 1) * N := by ring
        _ ≤ K * N := Nat.mul_le_mul_right N hk
    have hdiv : (k * N + n) / N = k := by
      rw [Nat.mul_comm, Nat.mul_add_div (by omega), Nat.div_eq_of_lt hn, Nat.add_zero]
    show (if k * N + n < K * N then S (k * N + n) / (max (C ((k * N + n) / N)) 1 : ℕ)
      else cent (k * N + n)) = _
    rw [if_pos hj, hdiv, hS k hk n hn, hC k hk]
  refine ⟨fun j => if j < K * N then S j / (max (C (j / N)) 1 : ℕ) else cent j,
    by rw [computeCentroids, hEq, Option.map_some'], hmean, ?_⟩
  intro k hk n hn hcard
  rw [hmean k hk n hn, Finset.card_eq_zero.mp hcard]
  simp

/-- Witness for C6: two one-dimensional points `2` and `4`, both assigned to
cluster `0` of `K = 2` clusters. -/
theorem c6_witness :
    (∀ m < 2, 0 ≤ asgZero m ∧ asgZero m < (2 : ℤ)) ∧
    (∃ f, computeCentroids dataTwoFour asgZero dataZ 2 1 2 = some f ∧
      (∀ k : ℕ, k < 2 → ∀ n : ℕ, n < 1 → f (k * 1 + n) =
        (∑ m ∈ (Finset.range 2).filter (fun m => asgZero m = (k : ℤ)), dataTwoFour (m * 1 + n)) /
          (max ((Finset.range 2).filter (fun m => asgZero m = (k : ℤ))).card 1 : ℕ)) ∧
      (∀ k : ℕ, k < 2 → ∀ n : ℕ, n < 1 →
        ((Finset.range 2).filter (fun m => asgZero m = (k : ℤ))).card = 0 →
          f (k * 1 + n) = 0)) := by
  have hb : ∀ m < 2, 0 ≤ asgZero m ∧ asgZero m < (2 : ℤ) := by
    intro m _
    exact ⟨le_refl 0, by norm_num [asgZero]⟩
  exact ⟨hb, c6_centroids_are_clamped_means dataTwoFour asgZero dataZ 2 1 2 hb⟩

/-- On the all-zero one-dimensional data set, every point-to-centroid
distance is zero. -/
lemma pointDist_dataZ (m k : ℕ) : pointDist dataZ dataZ 1 m k = 0 := by
  unfold pointDist
  rw [dist_one]
  norm_num [dataZ]

/-- Claim C8: `computeCentroids` is a deterministic, fully-overwriting
function of the data and the assignments only.  Running the Centroid Updater,
then the Assignment Kernel, then the Centroid Updater again with the
assignment vector unchanged reproduces the centroids of the first pass. -/
theorem c8_centroid_update_idempotent (data : ℕ → ℝ) (asg : ℕ → ℤ)
    (cent0 f1 : ℕ → ℝ) (M N K numThreads : ℕ)
    (hrange : ∀ m < M, 0 ≤ asg m ∧ asg m < (K : ℤ))
    (h1 : computeCentroids data asg cent0 M N K = some f1)
    (h2 : computeAssignments data f1 asg M N K numThreads = asg) :
    computeCentroids data (computeAssignments data f1 asg M N K numThreads) f1 M N K
      = some f1 := by
  rw [h2]
  rw [computeCentroids] at h1 ⊢
  cases hsl : sumLoop data asg N K M with
  | none =>
    rw [hsl] at h1
    exact absurd h1 (by simp)
  | some s =>
    rw [hsl] at h1
    rw [Option.map_some'] at h1 ⊢
    have hf := Option.some.inj h1
    subst hf
    refine congrArg _ (funext fun j => ?_)
    by_cases hj : j < K * N
    · simp [hj]
    · simp [hj]

/-- Witness for C8: one one-dimensional zero point assigned to the single
cluster; the first Centroid Updater pass yields the zero centroid, the
Assignment Kernel reproduces the same assignment, and the second pass yields
the same centroid. -/
theorem c8_witness :
    (∀ m < 1, 0 ≤ asgZero m ∧ asgZero m < (1 : ℤ)) ∧
    computeCentroids dataZ asgZero dataZ 1 1 1 = some dataZ ∧
    computeAssignments dataZ dataZ asgZero 1 1 1 1 = asgZero ∧
    computeCentroids dataZ (computeAssignments dataZ dataZ asgZero 1 1 1 1) dataZ 1 1 1
      = some dataZ := by
  have hb : ∀ m < 1, 0 ≤ asgZero m ∧ asgZero m < (1 : ℤ) := by
    intro m _
    exact ⟨le_refl 0, by norm_num [asgZero]⟩
  have h1 : computeCentroids dataZ asgZero dataZ 1 1 1 = some dataZ := by
    obtain ⟨S, C, hEq, hS, hC⟩ := sumLoop_spec dataZ asgZero 1 1 1 hb
    rw [computeCentroids, hEq, Option.map_some']
    refine congrArg _ (funext fun j => ?_)
    show (if j < 1 * 1 then S j / (max (C (j / 1)) 1 : ℕ) else dataZ j) = dataZ j
    by_cases hj : j < 1 * 1
    · have hj0 : j = 0 := by omega
      subst hj0
      have hfil : (Finset.range 1).filter (fun m => asgZero m = ((0 : ℕ) : ℤ)) = {0} := by
        decide
      have hS0 := hS 0 (by norm_num) 0 (by norm_num)
      have hC0 := hC 0 (by norm_num)
      rw [hfil, Finset.sum_singleton] at hS0
      rw [hfil, Finset.card_singleton] at hC0
      norm_num at hS0 hC0
      rw [if_pos hj]
      norm_num [hS0, hC0, dataZ]
    · rw [if_neg hj]
  have h2 : computeAssignments dataZ dataZ asgZero 1 1 1 1 = asgZero := by
    have e0 : workerStart 1 1 0 = 0 := by norm_num [workerStart]
    have e1 : workerEnd 1 1 0 - workerStart 1 1 0 = 0 + 1 := by
      norm_num [workerStart, workerEnd]
    unfold computeAssignments
    rw [show List.range 1 = [0] by simp [List.range_succ], List.foldl_cons, List.foldl_nil]
    unfold workerThreadStart
    rw [e1, e0, workerLoop]
    rw [show (0 : ℕ) + 0 = 0 from rfl, assignLoop_one_zero dataZ dataZ 1 0 (pointDist_dataZ 0 0)]
    show Function.update asgZero 0 (asgZero 0) = asgZero
    exact Function.update_eq_self 0 asgZero
  exact ⟨hb, h1, h2,
    c8_centroid_update_idempotent dataZ asgZero dataZ dataZ 1 1 1 1 hb h1 h2⟩

/-- Invariant of the strict-less-than running-minimum scan: after scanning
`K` centroids either no distance was below the `1e30` sentinel and the state
is still `(1e30, -1)`, or the state holds the first index attaining the
minimum distance among the first `K` centroids. -/
lemma assignLoop_invariant (data cent : ℕ → ℝ) (N m : ℕ) :
    ∀ K, ((assignLoop data cent N m K).1 = (10 : ℝ) ^ 30 ∧
        (assignLoop data cent N m K).2 = -1 ∧
        ∀ k < K, (10 : ℝ) ^ 30 ≤ pointDist data cent N m k) ∨
      (∃ j < K, (assignLoop data cent N m K).2 = (j : ℤ) ∧
        (assignLoop data cent N m K).1 = pointDist data cent N m j ∧
        pointDist data cent N m j < (10 : ℝ) ^ 30 ∧
        (∀ k < K, pointDist data cent N m j ≤ pointDist data cent N m k) ∧
        (∀ k < j, pointDist data cent N m j < pointDist data cent N m k)) := by
  intro K
  induction K with
  | zero =>
    left
    exact ⟨rfl, rfl, fun k hk => absurd hk (Nat.not_lt_zero k)⟩
  | succ K ih =>
    rcases ih with ⟨h1, h2, h3⟩ | ⟨j, hj, h2, h1, hlt, hle, hstrict⟩
    · by_cases hd : pointDist data cent N m K < (assignLoop data cent N m K).1
      · right
        refine ⟨K, Nat.lt_succ_self K, ?_, ?_, ?_, ?_, ?_⟩
        · rw [assignLoop_succ, if_pos hd]
        · rw [assignLoop_succ, if_pos hd]
        · rw [h1] at hd
          exact hd
        · intro k hk
          rcases Nat.lt_succ_iff_lt_or_eq.mp hk with h' | h'
          · rw [h1] at hd
            exact le_of_lt (lt_of_lt_of_le hd (h3 k h'))
          · rw [h']
        · intro k hk
          rw [h1] at hd
          exact lt_of_lt_of_le hd (h3 k hk)
      · left
        rw [assignLoop_succ, if_neg hd]
        refine ⟨h1, h2, fun k hk => ?_⟩
        rcases Nat.lt_succ_iff_lt_or_eq.mp hk with h' | h'
        · exact h3 k h'
        · rw [h']
          rw [h1] at hd
          exact not_lt.mp hd
    · by_cases hd : pointDist data cent N m K < (assignLoop data cent N m K).1
      · right
        rw [h1] at hd
        refine ⟨K, Nat.lt_succ_self K, ?_, ?_, lt_trans hd hlt, ?_, ?_⟩
        · rw [assignLoop_succ, if_pos (h1 ▸ hd)]
        · rw [assignLoop_succ, if_pos (h1 ▸ hd)]
        · intro k hk
          rcases Nat.lt_succ_iff_lt_or_eq.mp hk with h' | h'
          · exact le_of_lt (lt_of_lt_of_le hd (hle k h'))
          · rw [h']
        · intro k hk
          exact lt_of_lt_of_le hd (hle k hk)
      · right
        rw [h1] at hd
        refine ⟨j, Nat.lt_succ_of_lt hj, ?_, ?_, hlt, ?_, hstrict⟩
        · rw [assignLoop_succ, if_neg (h1 ▸ hd)]
          exact h2
        · rw [assignLoop_succ, if_neg (h1 ▸ hd)]
          exact h1
        · intro k hk
          rcases Nat.lt_succ_iff_lt_or_eq.mp hk with h' | h'
          · exact hle k h'
          · rw [h']
            exact not_lt.mp hd

/-- On the far-away data set, the single point sits at distance `2e30` from
the zero centroid — beyond the `1e30` sentinel. -/
lemma pointDist_dataBig : pointDist dataBig dataZ 1 0 0 = 2 * 10 ^ 30 := by
  unfold pointDist
  rw [dist_one]
  norm_num [dataBig, dataZ]

/-- A single-centroid scan whose only distance is at least the sentinel
leaves the initial state `(1e30, -1)` untouched. -/
lemma assignLoop_one_far (data cent : ℕ → ℝ) (N m : ℕ)
    (h : (10 : ℝ) ^ 30 ≤ pointDist data cent N m 0) :
    assignLoop data cent N m 1 = ((10 : ℝ) ^ 30, -1) := by
  have hn : ¬ pointDist data cent N m 0 < (assignLoop data cent N m 0).1 :=
    not_lt.mpr h
  rw [show (1 : ℕ) = 0 + 1 from rfl, assignLoop_succ, if_neg hn]
  rfl

/-- With the single centroid beyond the sentinel, the kernel leaves the
assignment of point `0` at its reset value `-1`. -/
lemma workerThreadStart_dataBig :
    workerThreadStart dataBig dataZ 1 1 0 1 asgZero 0 = -1 := by
  have ha : assignLoop dataBig dataZ 1 0 1 = ((10 : ℝ) ^ 30, -1) :=
    assignLoop_one_far dataBig dataZ 1 0 (by rw [pointDist_dataBig]; norm_num)
  unfold workerThreadStart
  rw [show (1 : ℕ) - 0 = 0 + 1 from rfl, workerLoop]
  rw [show (0 : ℕ) + 0 = 0 from rfl, Function.update_apply, if_pos rfl, ha]

/-- A single-point accumulation loop fed an assignment of `-1` hits the
out-of-range array access. -/
lemma sumLoop_neg_one (data : ℕ → ℝ) (asg : ℕ → ℤ) (N K : ℕ) (h : asg 0 = -1) :
    sumLoop data asg N K 1 = none := by
  rw [show (1 : ℕ) = 0 + 1 from rfl, sumLoop,
    show sumLoop data asg N K 0 = some (fun _ => 0, fun _ => 0) from rfl,
    Option.some_bind, if_neg (by rw [h]; norm_num)]

/-- Claim C7 counterexample: when every centroid is at distance at least
`1e30` (the finite sentinel), the kernel's strict `<` never fires and the
assignment stays `-1`, which is no centroid index at all — in particular not
the smallest index attaining the minimum (index `0` here, with `K = 1`). -/
theorem c7_sentinel_counterexample :
    (10 : ℝ) ^ 30 ≤ pointDist dataBig dataZ 1 0 0 ∧
    workerThreadStart dataBig dataZ 1 1 0 1 asgZero 0 = -1 ∧
    ¬ ∃ j : ℕ, workerThreadStart dataBig dataZ 1 1 0 1 asgZero 0 = (j : ℤ) ∧ j < 1 := by
  refine ⟨by rw [pointDist_dataBig]; norm_num, workerThreadStart_dataBig, ?_⟩
  rintro ⟨j, hjv, _⟩
  rw [workerThreadStart_dataBig] at hjv
  omega

/-- Claim C7 (amended): provided at least one centroid lies at distance
strictly below the `1e30` sentinel, the Assignment Kernel records for each
point in its range the smallest index attaining the minimum distance over all
`K` centroids; a later centroid whose distance ties the running minimum never
replaces the earlier index (the comparison is strict `<`). -/
theorem c7_first_min_index_wins (data cent : ℕ → ℝ) (N K s e m : ℕ) (asg : ℕ → ℤ)
    (hs : s ≤ m) (he : m < e)
    (h : ∃ k < K, pointDist data cent N m k < (10 : ℝ) ^ 30) :
    ∃ j : ℕ, workerThreadStart data cent N K s e asg m = (j : ℤ) ∧ j < K ∧
      (∀ k < K, pointDist data cent N m j ≤ pointDist data cent N m k) ∧
      (∀ k < j, pointDist data cent N m j < pointDist data cent N m k) := by
  rw [workerThreadStart, workerLoop_apply_in data cent N K s asg (e - s) m hs (by omega)]
  rcases assignLoop_invariant data cent N m K with ⟨_, _, h3⟩ | ⟨j, hj, h2, _, _, hle, hstrict⟩
  · obtain ⟨k, hk, hklt⟩ := h
    exact absurd hklt (not_lt.mpr (h3 k hk))
  · exact ⟨j, h2, hj, hle, hstrict⟩

/-- Witness for C7: one zero point, two centroids both at distance `0` — a
tie; the recorded index is the smaller one, `0`. -/
theorem c7_witness :
    ((0 : ℕ) ≤ 0 ∧ (0 : ℕ) < 1 ∧ ∃ k < 2, pointDist dataZ dataZ 1 0 k < (10 : ℝ) ^ 30) ∧
    (∃ j : ℕ, workerThreadStart dataZ dataZ 1 2 0 1 asgFive 0 = (j : ℤ) ∧ j < 2 ∧
      (∀ k < 2, pointDist dataZ dataZ 1 0 j ≤ pointDist dataZ dataZ 1 0 k) ∧
      (∀ k < j, pointDist dataZ dataZ 1 0 j < pointDist dataZ dataZ 1 0 k)) := by
  have hex : ∃ k < 2, pointDist dataZ dataZ 1 0 k < (10 : ℝ) ^ 30 := by
    refine ⟨0, by norm_num, ?_⟩
    rw [pointDist_dataZ]
    norm_num
  exact ⟨⟨le_refl 0, Nat.one_pos, hex⟩,
    c7_first_min_index_wins dataZ dataZ 1 2 0 1 0 asgFive (le_refl 0) Nat.one_pos hex⟩

/-- Claim C9: with every point-to-centroid distance at least the finite
sentinel `1e30`, `workerThreadStart` leaves the assignment entry at `-1`
(outside `[0, K)`), and the following `computeCentroids` reads that `-1` as a
cluster index — an out-of-range access into its count and centroid arrays,
modelled as `none`. -/
theorem c9_sentinel_reaches_centroid_update :
    (10 : ℝ) ^ 30 ≤ pointDist dataBig dataZ 1 0 0 ∧
    workerThreadStart dataBig dataZ 1 1 0 1 asgZero 0 = -1 ∧
    computeCentroids dataBig (workerThreadStart dataBig dataZ 1 1 0 1 asgZero) dataZ 1 1 1
      = none := by
  refine ⟨by rw [pointDist_dataBig]; norm_num, workerThreadStart_dataBig, ?_⟩
  rw [computeCentroids, sumLoop_neg_one dataBig _ 1 1 workerThreadStart_dataBig]
  rfl
